import Mathlib

/-!
Shallow embedding of `src/bob/ip/gabor/__init__.py`, the package
initialization module of `bob.ip.gabor`, together with proofs about its
behaviour.

The module body is a linear sequence of Python statements:

  line 2:  import bob.io.base
  line 3:  import bob.sp
  line 6:  import bob.extension
  bob.extension.load_bob_library('bob.ip.gabor', __file__)
  from ._library import *
  from . import version
  from .version import module as __version__
  from .version import api as __api_version__
  from .auxiliar import load_jets, save_jets
  def get_config(): ...
  __all__ = [_ for _ in dir() if not _.startswith('_')]

We model the module namespace as an insertion-ordered association list
(mirroring a Python `dict`), each statement as the stores it performs on
that namespace, `dir()` as the sorted list of keys, and the external
collaborators (the native `_library`, the `version` and `auxiliar`
siblings, and `bob.extension.get_config`) as parameters gathered in a
`World` structure, since their internals are outside this source file.
-/

/-- Values bindable in a Python module namespace; opaque objects carry a tag
identifying their origin. -/
inductive PyValue where
  | module (name : String)
  | func (qualname : String)
  | str (s : String)
  | strList (l : List String)
  | obj (tag : String)
  deriving DecidableEq, Repr

/-- A Python module namespace: an insertion-ordered association list from
names to values, as in a CPython `dict`. -/
abbrev NS := List (String × PyValue)

/-- Store a binding, replacing in place when the key is already present and
appending otherwise, exactly as a Python `dict` assignment behaves. -/
def nsStore : NS → String → PyValue → NS
  | [], k, v => [(k, v)]
  | (k', v') :: rest, k, v =>
      if k' = k then (k, v) :: rest else (k', v') :: nsStore rest k v

/-- Look a name up in a namespace. -/
def nsLookup : NS → String → Option PyValue
  | [], _ => none
  | (k', v') :: rest, k => if k' = k then some v' else nsLookup rest k

/-- The names bound in a namespace, in insertion order. -/
def nsKeys (ns : NS) : List String := ns.map Prod.fst

/-- Perform a sequence of stores from left to right. -/
def nsStoreList : NS → List (String × PyValue) → NS
  | ns, [] => ns
  | ns, (k, v) :: rest => nsStoreList (nsStore ns k v) rest

/-- Python `dir()` with no argument at module level: the sorted list of the
names bound in the calling namespace. -/
def pyDir (ns : NS) : List String :=
  (nsKeys ns).mergeSort (fun a b => decide (a ≤ b))

/-- True when a Python name is underscore-prefixed, i.e. `_.startswith('_')`:
the name is nonempty and its first character is an underscore. -/
def underscored (n : String) : Bool :=
  match n.data with
  | [] => false
  | c :: _ => c == '_'

/-- The external collaborators the module body consumes, none of which is
defined in this source file: the public names the native `_library` exposes
to a wildcard import and their values, the three attributes of the sibling
`version` module, the two functions of the sibling `auxiliar` module, the
formatting utility `bob.extension.get_config`, and the `__file__` path
that the import machinery supplies. -/
structure World where
  libraryNames : List String
  libraryVal : String → PyValue
  versionModule : PyValue
  versionApi : PyValue
  versionExternals : PyValue
  auxLoadJets : PyValue
  auxSaveJets : PyValue
  getConfigFmt : String → PyValue → PyValue → String
  filePath : String

/-- The public names a wildcard import takes from the native `_library`,
which has no `__all__` of its own: every exposed name that is not
underscore-prefixed. -/
def wildcardNames (w : World) : List String :=
  w.libraryNames.filter (fun n => !underscored n)

/-- The eleven top-level statements of the module body, one constructor per
statement, in source order. -/
inductive Step where
  | importBobIoBase
  | importBobSp
  | importBobExtension
  | loadBobLibrary
  | wildcardFromLibrary
  | importVersion
  | bindVersionDunder
  | bindApiVersionDunder
  | importAuxiliar
  | defGetConfig
  | computeAll
  deriving DecidableEq, Repr

/-- The module body in source order (lines 2, 3, 6, 7, 9, 10, 11, 12, 13,
15 and 22 of `__init__.py`). -/
def moduleBody : List Step :=
  [.importBobIoBase, .importBobSp, .importBobExtension, .loadBobLibrary,
   .wildcardFromLibrary, .importVersion, .bindVersionDunder,
   .bindApiVersionDunder, .importAuxiliar, .defGetConfig, .computeAll]

/-- The stores a statement performs on the module namespace, except
`__all__` whose stored value depends on the current namespace.
An `import bob.x.y` statement stores the top-level package object under the
name `bob`; `load_bob_library` is a pure side effect storing nothing;
`def get_config` stores a function object. A `from .sub import ...`
statement that loads the submodule `sub` for the first time also makes
the import system bind `sub` in this (the parent package's) namespace before
the statement's own stores run: line 9 thus binds `_library`, line 10
binds `version` twice (the machinery's submodule binding, then the
statement's own store of the same module object), and line 13 binds
`auxiliar`; lines 11 and 12 find `version` already loaded and store only
their dunder targets. -/
def stepStores (w : World) : Step → List (String × PyValue)
  | .importBobIoBase => [("bob", .module "bob")]
  | .importBobSp => [("bob", .module "bob")]
  | .importBobExtension => [("bob", .module "bob")]
  | .loadBobLibrary => []
  | .wildcardFromLibrary =>
      ("_library", .module "bob.ip.gabor._library") ::
        (wildcardNames w).map (fun n => (n, w.libraryVal n))
  | .importVersion =>
      [("version", .module "bob.ip.gabor.version"),
       ("version", .module "bob.ip.gabor.version")]
  | .bindVersionDunder => [("__version__", w.versionModule)]
  | .bindApiVersionDunder => [("__api_version__", w.versionApi)]
  | .importAuxiliar =>
      [("auxiliar", .module "bob.ip.gabor.auxiliar"),
       ("load_jets", w.auxLoadJets), ("save_jets", w.auxSaveJets)]
  | .defGetConfig => [("get_config", .func "bob.ip.gabor.get_config")]
  | .computeAll => []

/-- Execute one statement on the namespace. Line 22 evaluates
`[_ for _ in dir() if not _.startswith('_')]` against the namespace as it
stands, then stores the result under `__all__`. -/
def execStep (w : World) (ns : NS) : Step → NS
  | .computeAll =>
      nsStore ns "__all__"
        (.strList ((pyDir ns).filter (fun n => !underscored n)))
  | s => nsStoreList ns (stepStores w s)

/-- Execute a list of statements from left to right. -/
def runBody (w : World) : NS → List Step → NS
  | ns, [] => ns
  | ns, s :: rest => runBody w (execStep w ns s) rest

/-- The namespace the import machinery hands to the module body before any
statement runs: only the dunder attributes of a freshly created package
module, all underscore-prefixed. -/
def initNS (w : World) : NS :=
  [("__name__", .str "bob.ip.gabor"),
   ("__file__", .str w.filePath),
   ("__doc__", .obj "None"),
   ("__package__", .str "bob.ip.gabor"),
   ("__path__", .obj "path"),
   ("__loader__", .obj "loader"),
   ("__spec__", .obj "spec"),
   ("__builtins__", .obj "builtins")]

/-- The first ten statements of the module body: everything before the
`__all__` assignment of line 22. -/
def bodyPrefixSteps : List Step :=
  [.importBobIoBase, .importBobSp, .importBobExtension, .loadBobLibrary,
   .wildcardFromLibrary, .importVersion, .bindVersionDunder,
   .bindApiVersionDunder, .importAuxiliar, .defGetConfig]

/-- The namespace just before line 22 runs, i.e. after the first ten
statements. -/
def preAllNS (w : World) : NS :=
  runBody w (initNS w) bodyPrefixSteps

/-- The module namespace after the whole body has run. -/
def finalNS (w : World) : NS :=
  runBody w (initNS w) moduleBody

/-- The list bound to `__all__` in a namespace, empty when absent. -/
def allList (ns : NS) : List String :=
  match nsLookup ns "__all__" with
  | some (.strList l) => l
  | _ => []

/-- The value line 18 returns: look up `bob` and `version` in the module
globals, read `__name__`, and delegate to `bob.extension.get_config` with
the module name, `version.externals` and `version.api`, in that order.
`none` models a `NameError` when a global the body reads is unbound. -/
def get_config_value (w : World) (ns : NS) : Option String :=
  match nsLookup ns "bob", nsLookup ns "version", nsLookup ns "__name__" with
  | some _, some _, some (.str nm) =>
      some (w.getConfigFmt nm w.versionExternals w.versionApi)
  | _, _, _ => none

/-- The namespace after the three `import` statements and the wildcard
statement have run: `bob` is bound (three identical stores collapse into
one), then the import system binds the freshly loaded `_library` submodule
in this namespace, then every public `_library` name is bound. -/
def nsAfterWildcard (w : World) : NS :=
  nsStoreList
    (nsStore (nsStore (initNS w) "bob" (PyValue.module "bob"))
      "_library" (PyValue.module "bob.ip.gabor._library"))
    ((wildcardNames w).map fun n => (n, w.libraryVal n))

/-- The bindings lines 10 through 15 perform, in order: line 10 binds
`version` twice (the import system's submodule binding on first load, then
the statement's own store of the same module object), line 13 binds
`auxiliar` (submodule binding) and then its two imported functions. -/
def postStores (w : World) : List (String × PyValue) :=
  [("version", .module "bob.ip.gabor.version"),
   ("version", .module "bob.ip.gabor.version"),
   ("__version__", w.versionModule),
   ("__api_version__", w.versionApi),
   ("auxiliar", .module "bob.ip.gabor.auxiliar"),
   ("load_jets", w.auxLoadJets),
   ("save_jets", w.auxSaveJets),
   ("get_config", .func "bob.ip.gabor.get_config")]

theorem nsLookup_store_self (ns : NS) (k : String) (v : PyValue) :
    nsLookup (nsStore ns k v) k = some v := by
  induction ns with
  | nil => simp [nsStore, nsLookup]
  | cons hd tl ih =>
      by_cases h : hd.1 = k <;> simp [nsStore, nsLookup, h, ih]

theorem nsLookup_store_ne (ns : NS) {k k' : String} (v : PyValue)
    (h : k' ≠ k) : nsLookup (nsStore ns k v) k' = nsLookup ns k' := by
  induction ns with
  | nil =>
      simp only [nsStore, nsLookup, if_neg (Ne.symm h)]
  | cons hd tl ih =>
      by_cases hh : hd.1 = k
      · simp [nsStore, nsLookup, hh, Ne.symm h]
      · by_cases hk : hd.1 = k' <;> simp [nsStore, nsLookup, hh, hk, h, ih]

theorem nsStore_nsStore_same (ns : NS) (k : String) (v v' : PyValue) :
    nsStore (nsStore ns k v) k v' = nsStore ns k v' := by
  induction ns with
  | nil => simp [nsStore]
  | cons hd tl ih =>
      by_cases h : hd.1 = k <;> simp [nsStore, h, ih]

theorem mem_nsKeys_store (ns : NS) (k a : String) (v : PyValue) :
    a ∈ nsKeys (nsStore ns k v) ↔ a = k ∨ a ∈ nsKeys ns := by
  induction ns with
  | nil => simp [nsStore, nsKeys]
  | cons hd tl ih =>
      obtain ⟨k1, v1⟩ := hd
      by_cases h : k1 = k
      · subst h
        simp [nsStore, nsKeys]
        try tauto
      · simp only [nsStore, if_neg h, nsKeys, List.map_cons, List.mem_cons] at ih ⊢
        rw [ih]
        tauto

theorem nsLookup_storeList_not_mem (ns : NS) (l : List (String × PyValue))
    {k : String} (h : k ∉ l.map Prod.fst) :
    nsLookup (nsStoreList ns l) k = nsLookup ns k := by
  induction l generalizing ns with
  | nil => simp [nsStoreList]
  | cons hd tl ih =>
      simp only [List.map_cons, List.mem_cons, not_or] at h
      rw [nsStoreList, ih _ h.2, nsLookup_store_ne _ _ h.1]

theorem mem_nsKeys_storeList (ns : NS) (l : List (String × PyValue))
    (a : String) :
    a ∈ nsKeys (nsStoreList ns l) ↔ a ∈ l.map Prod.fst ∨ a ∈ nsKeys ns := by
  induction l generalizing ns with
  | nil => simp [nsStoreList]
  | cons hd tl ih =>
      rw [nsStoreList, ih]
      simp [mem_nsKeys_store]
      tauto

theorem nsLookup_isSome_of_mem (ns : NS) {k : String}
    (h : k ∈ nsKeys ns) : (nsLookup ns k).isSome := by
  induction ns with
  | nil => simp [nsKeys] at h
  | cons hd tl ih =>
      by_cases hh : hd.1 = k
      · simp [nsLookup, hh]
      · simp only [nsKeys, List.map_cons, List.mem_cons] at h
        rcases h with h | h
        · exact absurd h.symm hh
        · simp only [nsLookup, if_neg hh]
          exact ih h

theorem runBody_append (w : World) (ns : NS) (l1 l2 : List Step) :
    runBody w ns (l1 ++ l2) = runBody w (runBody w ns l1) l2 := by
  induction l1 generalizing ns with
  | nil => simp [runBody]
  | cons hd tl ih => rw [List.cons_append, runBody, runBody, ih]

theorem underscored_not_mem_wildcard (w : World) {n : String}
    (h : underscored n = true) : n ∉ wildcardNames w := by
  intro hm
  simp [wildcardNames, List.mem_filter] at hm
  exact absurd h (by simp [hm.2])

theorem map_fst_pairs (l : List String) (f : String → PyValue) :
    ((l.map fun n => (n, f n)).map Prod.fst) = l := by
  induction l with
  | nil => rfl
  | cons hd tl ih => simp [ih]

theorem map_fst_wildcard (w : World) :
    (((wildcardNames w).map fun n => (n, w.libraryVal n)).map Prod.fst)
      = wildcardNames w :=
  map_fst_pairs _ _

theorem preAllNS_eq (w : World) :
    preAllNS w = nsStoreList (nsAfterWildcard w) (postStores w) := by
  simp [preAllNS, bodyPrefixSteps, runBody, execStep, stepStores,
    nsStoreList, nsAfterWildcard, postStores, nsStore_nsStore_same,
    wildcardNames]

theorem finalNS_eq (w : World) :
    finalNS w = nsStore (preAllNS w) "__all__"
      (.strList ((pyDir (preAllNS w)).filter (fun n => !underscored n))) := by
  have h : moduleBody = bodyPrefixSteps ++ [Step.computeAll] := rfl
  rw [finalNS, h, runBody_append]
  rfl

theorem allList_finalNS (w : World) :
    allList (finalNS w)
      = (pyDir (preAllNS w)).filter (fun n => !underscored n) := by
  rw [allList, finalNS_eq, nsLookup_store_self]

theorem mem_allList_char (w : World) (n : String) :
    n ∈ allList (finalNS w)
      ↔ n ∈ nsKeys (preAllNS w) ∧ underscored n = false := by
  rw [allList_finalNS, List.mem_filter, pyDir, List.mem_mergeSort,
    Bool.not_eq_true']

theorem mem_nsKeys_preAllNS (w : World) (a : String) :
    a ∈ nsKeys (preAllNS w) ↔
      a ∈ wildcardNames w ∨ a = "bob" ∨ a = "_library" ∨ a = "version" ∨
      a = "__version__" ∨ a = "__api_version__" ∨ a = "auxiliar" ∨
      a = "load_jets" ∨ a = "save_jets" ∨ a = "get_config" ∨
      a ∈ nsKeys (initNS w) := by
  rw [preAllNS_eq, mem_nsKeys_storeList]
  simp only [postStores, List.map_cons, List.map_nil, List.mem_cons,
    List.not_mem_nil, or_false, nsAfterWildcard, mem_nsKeys_storeList,
    mem_nsKeys_store, map_fst_wildcard]
  tauto

theorem nsLookup_finalNS_ne_all (w : World) (k : String)
    (h : k ≠ "__all__") :
    nsLookup (finalNS w) k = nsLookup (preAllNS w) k := by
  rw [finalNS_eq, nsLookup_store_ne _ _ h]

theorem nsLookup_preAllNS_version (w : World) :
    nsLookup (preAllNS w) "version"
      = some (.module "bob.ip.gabor.version") := by
  rw [preAllNS_eq]
  simp only [postStores, nsStoreList]
  rw [nsLookup_store_ne _ _ (by decide), nsLookup_store_ne _ _ (by decide),
    nsLookup_store_ne _ _ (by decide), nsLookup_store_ne _ _ (by decide),
    nsLookup_store_ne _ _ (by decide), nsLookup_store_ne _ _ (by decide),
    nsLookup_store_self]

theorem nsLookup_preAllNS_version_dunder (w : World) :
    nsLookup (preAllNS w) "__version__" = some w.versionModule := by
  rw [preAllNS_eq]
  simp only [postStores, nsStoreList]
  rw [nsLookup_store_ne _ _ (by decide), nsLookup_store_ne _ _ (by decide),
    nsLookup_store_ne _ _ (by decide), nsLookup_store_ne _ _ (by decide),
    nsLookup_store_ne _ _ (by decide), nsLookup_store_self]

theorem nsLookup_preAllNS_api_dunder (w : World) :
    nsLookup (preAllNS w) "__api_version__" = some w.versionApi := by
  rw [preAllNS_eq]
  simp only [postStores, nsStoreList]
  rw [nsLookup_store_ne _ _ (by decide), nsLookup_store_ne _ _ (by decide),
    nsLookup_store_ne _ _ (by decide), nsLookup_store_ne _ _ (by decide),
    nsLookup_store_self]

theorem nsLookup_preAllNS_load_jets (w : World) :
    nsLookup (preAllNS w) "load_jets" = some w.auxLoadJets := by
  rw [preAllNS_eq]
  simp only [postStores, nsStoreList]
  rw [nsLookup_store_ne _ _ (by decide), nsLookup_store_ne _ _ (by decide),
    nsLookup_store_self]

theorem nsLookup_preAllNS_save_jets (w : World) :
    nsLookup (preAllNS w) "save_jets" = some w.auxSaveJets := by
  rw [preAllNS_eq]
  simp only [postStores, nsStoreList]
  rw [nsLookup_store_ne _ _ (by decide), nsLookup_store_self]

theorem nsLookup_preAllNS_get_config (w : World) :
    nsLookup (preAllNS w) "get_config"
      = some (.func "bob.ip.gabor.get_config") := by
  rw [preAllNS_eq]
  simp only [postStores, nsStoreList]
  rw [nsLookup_store_self]

theorem nsLookup_preAllNS_name (w : World) :
    nsLookup (preAllNS w) "__name__" = some (.str "bob.ip.gabor") := by
  rw [preAllNS_eq]
  simp only [postStores, nsStoreList]
  rw [nsLookup_store_ne _ _ (by decide), nsLookup_store_ne _ _ (by decide),
    nsLookup_store_ne _ _ (by decide), nsLookup_store_ne _ _ (by decide),
    nsLookup_store_ne _ _ (by decide), nsLookup_store_ne _ _ (by decide),
    nsLookup_store_ne _ _ (by decide), nsLookup_store_ne _ _ (by decide)]
  rw [nsAfterWildcard, nsLookup_storeList_not_mem _ _
    (by rw [map_fst_wildcard]
        exact underscored_not_mem_wildcard w (by decide))]
  rw [nsLookup_store_ne _ _ (by decide), nsLookup_store_ne _ _ (by decide)]
  rfl

theorem nsLookup_preAllNS_bob_isSome (w : World) :
    (nsLookup (preAllNS w) "bob").isSome := by
  apply nsLookup_isSome_of_mem
  rw [mem_nsKeys_preAllNS]
  tauto

/-- Execute the module body when collaborators may fail: `err` gives, for
each statement, the Python exception (modelled as a message string) its
collaborator raises, or `none` when it succeeds. A raised exception aborts
the body at once; nothing catches, translates or retries it, so the result
is either the fully initialized namespace or exactly the collaborator's
error. -/
def runBodyE (w : World) (err : Step → Option String) :
    List Step → NS → Except String NS
  | [], ns => .ok ns
  | s :: rest, ns =>
      match err s with
      | some e => .error e
      | none => runBodyE w err rest (execStep w ns s)

theorem runBodyE_error_at (w : World) (err : Step → Option String)
    (pre post : List Step) (s : Step) (e : String)
    (hs : err s = some e) (hpre : ∀ t ∈ pre, err t = none) :
    ∀ ns : NS, runBodyE w err (pre ++ s :: post) ns = .error e := by
  induction pre with
  | nil =>
      intro ns
      simp [runBodyE, hs]
  | cons hd tl ih =>
      intro ns
      have h1 : err hd = none := hpre hd (by simp)
      simp only [List.cons_append, runBodyE, h1]
      exact ih (fun t ht => hpre t (by simp [ht])) _

/-- Statements a function body may perform on the module globals when
called: store a global (only possible under a `global` declaration), or
return the value of an expression, which reads globals but never writes
them. -/
inductive FnStmt where
  | storeGlobal (name : String) (v : PyValue)
  | ret
  deriving DecidableEq, Repr

/-- Effect of running a function body on the module namespace. -/
def runFnBody : List FnStmt → NS → NS
  | [], ns => ns
  | .storeGlobal n v :: rest, ns => runFnBody rest (nsStore ns n v)
  | .ret :: _, ns => ns

/-- The body of `get_config` (lines 15 through 18): a single `return`
statement and no global store. -/
def get_config_body : List FnStmt := [.ret]

/-- The names a statement stores into the module namespace, in order. -/
def stepStoreNames (w : World) : Step → List String
  | .computeAll => ["__all__"]
  | s => (stepStores w s).map Prod.fst

/-- Every module-level binding event the body performs, in program order:
one entry per store a statement executes. -/
def bindTrace (w : World) : List String :=
  (moduleBody.map (stepStoreNames w)).flatten

/-- Process-level import state: the `sys.modules` entry this package may
occupy, and the trace of module-body statements the process has run. -/
structure ProcState where
  modules : List (String × NS)
  executed : List Step

/-- Look a module up in the `sys.modules` model. -/
def findModule : List (String × NS) → String → Option NS
  | [], _ => none
  | (k, m) :: rest, n => if k = n then some m else findModule rest n

/-- Python `import bob.ip.gabor` at process level: when `sys.modules`
already holds the package, the cached module is reused and no statement
runs; otherwise the body runs once, its statements extend the executed
trace, and the resulting namespace is registered. -/
def importGabor (w : World) (p : ProcState) : ProcState :=
  match findModule p.modules "bob.ip.gabor" with
  | some _ => p
  | none =>
      { modules := ("bob.ip.gabor", finalNS w) :: p.modules,
        executed := p.executed ++ moduleBody }

/-- A concrete world for instantiating the theorems: the native library
exposes no public names, and every collaborator value is a small constant. -/
def w0 : World where
  libraryNames := []
  libraryVal := fun n => .obj n
  versionModule := .str "2.0.10"
  versionApi := .str "2.0"
  versionExternals := .obj "externals"
  auxLoadJets := .func "bob.ip.gabor.auxiliar.load_jets"
  auxSaveJets := .func "bob.ip.gabor.auxiliar.save_jets"
  getConfigFmt := fun nm _ _ => nm
  filePath := "bob/ip/gabor/package-init.py"

/-- A failure scenario: the extension loader cannot find the native
artifact and raises; every other collaborator succeeds. -/
def err0 : Step → Option String := fun s =>
  if s = Step.loadBobLibrary then some "ImportError: cannot load library" else none

theorem bindTrace_eq (w : World) :
    bindTrace w = "bob" :: "bob" :: "bob" :: "_library" ::
      (wildcardNames w ++
        ["version", "version", "__version__", "__api_version__",
         "auxiliar", "load_jets", "save_jets", "get_config",
         "__all__"]) := by
  have hc : List.map (Prod.fst ∘ fun n => (n, w.libraryVal n))
      (wildcardNames w) = wildcardNames w := by
    induction wildcardNames w with
    | nil => rfl
    | cons hd tl ih => simp [ih]
  simp [bindTrace, moduleBody, stepStoreNames, stepStores, hc]

theorem nsLookup_preAllNS_bob (w : World)
    (hb : "bob" ∉ wildcardNames w) :
    nsLookup (preAllNS w) "bob" = some (.module "bob") := by
  rw [preAllNS_eq]
  simp only [postStores, nsStoreList]
  rw [nsLookup_store_ne _ _ (by decide), nsLookup_store_ne _ _ (by decide),
    nsLookup_store_ne _ _ (by decide), nsLookup_store_ne _ _ (by decide),
    nsLookup_store_ne _ _ (by decide), nsLookup_store_ne _ _ (by decide),
    nsLookup_store_ne _ _ (by decide), nsLookup_store_ne _ _ (by decide)]
  rw [nsAfterWildcard, nsLookup_storeList_not_mem _ _
    (by rw [map_fst_wildcard]; exact hb),
    nsLookup_store_ne _ _ (by decide), nsLookup_store_self]

/-- C1: after initialization, `__all__` holds a name exactly when the name
was bound in the module namespace at the point line 22 computed it and is
not underscore-prefixed: every underscored name of the namespace is absent
from `__all__`, and every non-underscored name bound at that point is
present. -/
theorem all_is_public_surface (w : World) (n : String) :
    n ∈ allList (finalNS w)
      ↔ n ∈ nsKeys (preAllNS w) ∧ underscored n = false :=
  mem_allList_char w n

/-- C2: `get_config` returns the string obtained by delegating to the
shared formatter `bob.extension.get_config` applied to exactly the triple
(module name, `version.externals`, `version.api`), in that order. -/
theorem get_config_delegates (w : World) :
    get_config_value w (finalNS w)
      = some (w.getConfigFmt "bob.ip.gabor" w.versionExternals
          w.versionApi) := by
  have hb : (nsLookup (finalNS w) "bob").isSome := by
    rw [nsLookup_finalNS_ne_all w _ (by decide)]
    exact nsLookup_preAllNS_bob_isSome w
  obtain ⟨vb, hvb⟩ := Option.isSome_iff_exists.mp hb
  unfold get_config_value
  rw [hvb, nsLookup_finalNS_ne_all w _ (by decide),
    nsLookup_preAllNS_version, nsLookup_finalNS_ne_all w _ (by decide),
    nsLookup_preAllNS_name]

/-- C3: the module body is a fixed linear sequence executing each statement
exactly once, with the two sibling dependency imports first, the native
library attachment after them (and after `import bob.extension`, which it
needs), and the re-export statements (the wildcard import, then the
`auxiliar` import) after the attachment. -/
theorem initialization_order :
    (∀ s : Step, moduleBody.count s = 1) ∧
    moduleBody.indexOf .importBobIoBase < moduleBody.indexOf .loadBobLibrary ∧
    moduleBody.indexOf .importBobSp < moduleBody.indexOf .loadBobLibrary ∧
    moduleBody.indexOf .importBobExtension < moduleBody.indexOf .loadBobLibrary ∧
    moduleBody.indexOf .loadBobLibrary < moduleBody.indexOf .wildcardFromLibrary ∧
    moduleBody.indexOf .wildcardFromLibrary < moduleBody.indexOf .importAuxiliar ∧
    moduleBody.indexOf .importBobIoBase < moduleBody.indexOf .importBobSp ∧
    moduleBody.indexOf .importBobSp < moduleBody.indexOf .importBobExtension := by
  constructor
  · intro s
    cases s <;> decide
  · decide

/-- C4: after a successful import, `load_jets` and `save_jets` are bound in
the package namespace, and each is the very value the sibling helper module
`auxiliar` defines. -/
theorem jets_reexported (w : World) :
    nsLookup (finalNS w) "load_jets" = some w.auxLoadJets ∧
    nsLookup (finalNS w) "save_jets" = some w.auxSaveJets := by
  constructor
  · rw [nsLookup_finalNS_ne_all w _ (by decide), nsLookup_preAllNS_load_jets]
  · rw [nsLookup_finalNS_ne_all w _ (by decide), nsLookup_preAllNS_save_jets]

/-- C6: calling `get_config` has no side effect on the module namespace:
its body is a single `return` with no global store, so every module-level
binding — `__all__` included — is unchanged by a call. -/
theorem get_config_no_side_effect (ns : NS) :
    runFnBody get_config_body ns = ns ∧
    allList (runFnBody get_config_body ns) = allList ns :=
  ⟨rfl, rfl⟩

/-- C8: importing the package twice in one process equals importing it
once: the second import finds the package in the module cache, runs no
statement, and yields the identical process state, namespace and
`get_config` output included. -/
theorem import_idempotent (w : World) (p : ProcState) :
    importGabor w (importGabor w p) = importGabor w p := by
  cases h : findModule p.modules "bob.ip.gabor" with
  | some m => simp [importGabor, h]
  | none => simp [importGabor, h, findModule]

/-- C9: `__all__` is computed by the final statement, after `get_config`
is defined and after all imports, so it contains `get_config` together
with the non-underscore names the imports themselves bound: `bob`,
`version`, `load_jets` and `save_jets`. -/
theorem all_contains_late_names (w : World) :
    "get_config" ∈ allList (finalNS w) ∧ "bob" ∈ allList (finalNS w) ∧
    "version" ∈ allList (finalNS w) ∧ "load_jets" ∈ allList (finalNS w) ∧
    "save_jets" ∈ allList (finalNS w) := by
  refine ⟨?_, ?_, ?_, ?_, ?_⟩ <;>
    · rw [mem_allList_char, mem_nsKeys_preAllNS]
      exact ⟨by tauto, by decide⟩

/-- C10: after import, `__version__` is bound to `version.module` and
`__api_version__` to `version.api`; both are underscore-prefixed and hence
absent from `__all__`, while the `version` submodule stays public. -/
theorem version_dunders (w : World) :
    nsLookup (finalNS w) "__version__" = some w.versionModule ∧
    nsLookup (finalNS w) "__api_version__" = some w.versionApi ∧
    "__version__" ∉ allList (finalNS w) ∧
    "__api_version__" ∉ allList (finalNS w) ∧
    "version" ∈ allList (finalNS w) := by
  refine ⟨?_, ?_, ?_, ?_, ?_⟩
  · rw [nsLookup_finalNS_ne_all w _ (by decide),
      nsLookup_preAllNS_version_dunder]
  · rw [nsLookup_finalNS_ne_all w _ (by decide),
      nsLookup_preAllNS_api_dunder]
  · intro h
    rw [mem_allList_char] at h
    exact absurd h.2 (by decide)
  · intro h
    rw [mem_allList_char] at h
    exact absurd h.2 (by decide)
  · rw [mem_allList_char, mem_nsKeys_preAllNS]
    exact ⟨by tauto, by decide⟩

/-- C5: any collaborator failure during initialization propagates
unmodified to the importer: when every statement before `s` succeeds and
`s`'s collaborator raises `e`, running the module body yields exactly
`Except.error e` — the error is not translated or wrapped, nothing is
retried, and no (partial) namespace is returned. -/
theorem init_error_propagates (w : World) (err : Step → Option String)
    (ns : NS) (pre post : List Step) (s : Step) (e : String)
    (hsplit : moduleBody = pre ++ s :: post)
    (hs : err s = some e) (hpre : ∀ t ∈ pre, err t = none) :
    runBodyE w err moduleBody ns = Except.error e := by
  rw [hsplit]
  exact runBodyE_error_at w err pre post s e hs hpre ns

/-- Witness for C5: when `load_bob_library` cannot find the native
artifact, importing the package fails with exactly that error. -/
theorem init_error_propagates_witness :
    runBodyE w0 err0 moduleBody (initNS w0)
      = Except.error "ImportError: cannot load library" :=
  init_error_propagates w0 err0 (initNS w0)
    [.importBobIoBase, .importBobSp, .importBobExtension]
    [.wildcardFromLibrary, .importVersion, .bindVersionDunder,
     .bindApiVersionDunder, .importAuxiliar, .defGetConfig, .computeAll]
    .loadBobLibrary "ImportError: cannot load library"
    (by decide) (by decide) (by decide)

/-- C7 is false as stated: the three top-level `import` statements each
store the name `bob`, so during the load sequence `bob` receives three
binding events, not one. -/
theorem single_binding_counterexample :
    "bob" ∈ bindTrace w0 ∧ (bindTrace w0).count "bob" = 3 ∧
    ¬ (∀ n ∈ bindTrace w0, (bindTrace w0).count n = 1) := by
  decide

/-- C7 amended: when the native library's public names are distinct and do
not collide with the names the other statements bind, every name stored
during the load sequence is stored exactly once, except two: `bob`, which
the three `import` statements each store, and `version`, which line 10
stores twice (the import system's submodule binding, then the statement's
own store) — each time with the same value, so the final binding of either
name is the value of its first store; and running a re-exported function
(`get_config`) changes no module-level binding. -/
theorem single_binding_amended (w : World) (ns : NS)
    (hnd : (wildcardNames w).Nodup)
    (hdisj : ∀ n ∈ wildcardNames w,
      n ∉ (["bob", "version", "auxiliar", "load_jets", "save_jets",
            "get_config"] : List String)) :
    (bindTrace w).count "bob" = 3 ∧
    (bindTrace w).count "version" = 2 ∧
    (∀ n ∈ bindTrace w, n ≠ "bob" → n ≠ "version" →
      (bindTrace w).count n = 1) ∧
    nsLookup (finalNS w) "bob" = some (.module "bob") ∧
    nsLookup (finalNS w) "version"
      = some (.module "bob.ip.gabor.version") ∧
    runFnBody get_config_body ns = ns := by
  have hbw : "bob" ∉ wildcardNames w := fun h => hdisj _ h (by decide)
  have hvw : "version" ∉ wildcardNames w := fun h => hdisj _ h (by decide)
  have hu : ∀ n ∈ wildcardNames w, underscored n = false := by
    intro n hnw
    have := List.mem_filter.mp hnw
    simpa using this.2
  have hTdisj : ∀ n ∈ wildcardNames w,
      n ∉ (["version", "version", "__version__", "__api_version__",
            "auxiliar", "load_jets", "save_jets", "get_config",
            "__all__"] : List String) := by
    intro n hnw hT
    simp only [List.mem_cons, List.not_mem_nil, or_false] at hT
    rcases hT with h | h | h | h | h | h | h | h | h
    · exact hdisj _ hnw (by rw [h]; decide)
    · exact hdisj _ hnw (by rw [h]; decide)
    · exact absurd (hu _ hnw) (by rw [h]; decide)
    · exact absurd (hu _ hnw) (by rw [h]; decide)
    · exact hdisj _ hnw (by rw [h]; decide)
    · exact hdisj _ hnw (by rw [h]; decide)
    · exact hdisj _ hnw (by rw [h]; decide)
    · exact hdisj _ hnw (by rw [h]; decide)
    · exact absurd (hu _ hnw) (by rw [h]; decide)
  refine ⟨?_, ?_, ?_, ?_, ?_, rfl⟩
  · rw [bindTrace_eq]
    simp [List.count_cons, List.count_append,
      List.count_eq_zero_of_not_mem hbw]
  · rw [bindTrace_eq]
    simp [List.count_cons, List.count_append,
      List.count_eq_zero_of_not_mem hvw]
  · intro n hn hne hne2
    rw [bindTrace_eq] at hn ⊢
    simp only [List.mem_cons, List.mem_append, List.not_mem_nil,
      or_false] at hn
    rcases hn with h | h | h | h | hw | h | h | h | h | h | h | h | h | h
    · exact absurd h hne
    · exact absurd h hne
    · exact absurd h hne
    · subst h
      have h0 : (wildcardNames w).count "_library" = 0 :=
        List.count_eq_zero_of_not_mem
          (underscored_not_mem_wildcard w (by decide))
      simp [List.count_cons, List.count_append, h0]
    · have h1 : (wildcardNames w).count n = 1 :=
        List.count_eq_one_of_mem hnd hw
      have hT0 : List.count n
          (["version", "version", "__version__", "__api_version__",
            "auxiliar", "load_jets", "save_jets", "get_config",
            "__all__"] : List String) = 0 :=
        List.count_eq_zero_of_not_mem (hTdisj n hw)
      have hnl : n ≠ "_library" :=
        fun h => absurd (hu n hw) (by rw [h]; decide)
      simp [List.count_cons, List.count_append, hne, hnl, h1, hT0]
    · exact absurd h hne2
    · exact absurd h hne2
    all_goals
      have h0 : (wildcardNames w).count n = 0 :=
        List.count_eq_zero_of_not_mem
          (fun hw2 => hTdisj n hw2 (by rw [h]; decide))
      subst h
      simp [List.count_cons, List.count_append, h0]
  · rw [nsLookup_finalNS_ne_all w _ (by decide)]
    exact nsLookup_preAllNS_bob w hbw
  · rw [nsLookup_finalNS_ne_all w _ (by decide)]
    exact nsLookup_preAllNS_version w

/-- Witness for the amended C7 at the concrete world `w0`, whose native
library exposes no public name. -/
theorem single_binding_amended_witness :
    (bindTrace w0).count "bob" = 3 ∧
    (bindTrace w0).count "version" = 2 ∧
    (∀ n ∈ bindTrace w0, n ≠ "bob" → n ≠ "version" →
      (bindTrace w0).count n = 1) ∧
    nsLookup (finalNS w0) "bob" = some (.module "bob") ∧
    nsLookup (finalNS w0) "version"
      = some (.module "bob.ip.gabor.version") ∧
    runFnBody get_config_body (finalNS w0) = finalNS w0 :=
  single_binding_amended w0 (finalNS w0) (by decide) (by decide)
